import Mathlib

/-!
Verification of the session-management and round-resolution core of the
`boardgames` repository (`types/src/lib.rs` and `server/src/server.rs`).

The Rust data model is embedded shallowly: `i32` identifiers become `Int`
(identifier overflow is out of scope for the spec), `usize` scores and counts
become `Nat`, `Vec` becomes `List`, and `HashMap<PlayerId, ActionKind>`
becomes an association list with unique keys.

One point needs care: `play_round` iterates `current_round.inputs.keys()`, and
the iteration order of a Rust `HashMap` (with the default `RandomState`
hasher) is unspecified.  The embedding therefore threads an explicit order
oracle `ord` through `play_round`: the oracle is used when it is a
permutation of the stored entries (any order the `HashMap` could present) and
otherwise falls back to the insertion order of the association list.
Properties that hold for every oracle hold for the Rust program; a property
that fails for some oracle is not guaranteed by the Rust program.
-/

namespace Boardgames

abbrev PlayerId : Type := Int
abbrev RoomId : Type := Int
abbrev GameId : Type := Int

/-- `enum GameKind` from `types/src/lib.rs`. -/
inductive GameKind where
  | RockPaperScissors
deriving DecidableEq

/-- `enum EndCondition` from `types/src/lib.rs`. -/
inductive EndCondition where
  | TotalRounds (n : Nat)
  | FirstToScore (n : Nat)
deriving DecidableEq

/-- `enum GameStatus` from `types/src/lib.rs`. -/
inductive GameStatus where
  | Running
  | Ended
deriving DecidableEq

/-- `enum ActionKind` from `types/src/lib.rs`. -/
inductive ActionKind where
  | Rock
  | Paper
  | Scissors
deriving DecidableEq

/-- `struct GameSettings` from `types/src/lib.rs`. -/
structure GameSettings where
  kind : GameKind
  player_count : Nat
  end_condition : EndCondition
deriving DecidableEq

/-- `struct PlayerData` from `types/src/lib.rs`. -/
structure PlayerData where
  id : PlayerId
  name : String
deriving DecidableEq

/-- `struct RoomData` from `types/src/lib.rs`. -/
structure RoomData where
  id : RoomId
  name : String
  settings : GameSettings
  players : List PlayerData
deriving DecidableEq

/-- `enum RoundResult` from `types/src/lib.rs`. -/
inductive RoundResult where
  | Draw
  | Winner (id : PlayerId)
deriving DecidableEq

/-- `struct RoundData` from `types/src/lib.rs`.  The `HashMap` of inputs is
an association list with (invariantly) unique keys. -/
structure RoundData where
  inputs : List (PlayerId × ActionKind)
  result : Option (List RoundResult)
deriving DecidableEq

/-- `RoundData::default()`. -/
def RoundData.default : RoundData := { inputs := [], result := none }

/-- `struct GameData` from `types/src/lib.rs`. -/
structure GameData where
  id : GameId
  settings : GameSettings
  players : List (PlayerData × Nat)
  current_round : RoundData
  round_history : List RoundData
  status : GameStatus
deriving DecidableEq

/-- `struct ServerData` from `server/src/server.rs`. -/
structure ServerData where
  games : List GameData
  players : List PlayerData
  rooms : List RoomData
  next_player_id : PlayerId
  next_game_id : GameId
  next_room_id : RoomId
deriving DecidableEq

/-- `ServerData::default()`. -/
def ServerData.init : ServerData :=
  { games := [], players := [], rooms := [],
    next_player_id := 0, next_game_id := 0, next_room_id := 0 }

/-- The error kinds of the core (§7 of the spec); the Rust code returns them
as distinct `anyhow` messages. -/
inductive Err where
  | UnknownPlayer
  | UnknownRoom
  | UnknownGame
  | NameTaken
  | AlreadyInRoom
  | RoomFull
  | NotInRoom
  | NotHost
  | RoomNotFull
  | NotInGame
  | GameEnded
deriving DecidableEq

/-- `ServerData::create_player_with_name`.  The Rust method mutates `&mut
self`; the embedding returns the result together with the state at the point
of return. -/
def ServerData.create_player_with_name (s : ServerData) (player_name : String) :
    Except Err PlayerData × ServerData :=
  if s.players.any (fun player => player.name = player_name) then
    (.error .NameTaken, s)
  else
    let player_data : PlayerData := { id := s.next_player_id, name := player_name }
    (.ok player_data,
     { s with players := s.players ++ [player_data],
              next_player_id := s.next_player_id + 1 })

/-- `ServerData::create_game` (infallible; allocates a game id and builds the
initial game snapshot from the room). -/
def ServerData.create_game (s : ServerData) (room_data : RoomData) :
    GameData × ServerData :=
  ({ id := s.next_game_id,
     settings := room_data.settings,
     players := room_data.players.map (fun player => (player, 0)),
     current_round := RoundData.default,
     round_history := [],
     status := .Running },
   { s with next_game_id := s.next_game_id + 1 })

/-- Default settings used by `create_room` when the caller supplies none. -/
def defaultSettings : GameSettings :=
  { kind := .RockPaperScissors, player_count := 2,
    end_condition := .FirstToScore 3 }

/-- `ServerData::create_room`. -/
def ServerData.create_room (s : ServerData) (player_id : PlayerId)
    (room_name : String) (settings : Option GameSettings) :
    Except Err RoomData × ServerData :=
  match s.players.find? (fun player => player.id = player_id) with
  | none => (.error .UnknownPlayer, s)
  | some player_data =>
    let room_data : RoomData :=
      { id := s.next_room_id,
        settings := settings.getD defaultSettings,
        players := [player_data],
        name := room_name }
    (.ok room_data,
     { s with rooms := s.rooms ++ [room_data],
              next_room_id := s.next_room_id + 1 })

/-- The room-list part of `ServerData::join_room`: locate the first room with
the given id (`iter_mut().find`), run the membership and capacity checks, and
append the joining player. -/
def joinRooms (player_data : PlayerData) (player_id : PlayerId) (room_id : RoomId) :
    List RoomData → Except Err (RoomData × List RoomData)
  | [] => .error .UnknownRoom
  | room :: rest =>
    if room.id = room_id then
      if room.players.any (fun player => player.id = player_id) then
        .error .AlreadyInRoom
      else if room.settings.player_count ≤ room.players.length then
        .error .RoomFull
      else
        let room' := { room with players := room.players ++ [player_data] }
        .ok (room', room' :: rest)
    else
      match joinRooms player_data player_id room_id rest with
      | .error e => .error e
      | .ok (room', rest') => .ok (room', room :: rest')

/-- `ServerData::join_room`. -/
def ServerData.join_room (s : ServerData) (player_id : PlayerId) (room_id : RoomId) :
    Except Err RoomData × ServerData :=
  match s.players.find? (fun player => player.id = player_id) with
  | none => (.error .UnknownPlayer, s)
  | some player_data =>
    match joinRooms player_data player_id room_id s.rooms with
    | .error e => (.error e, s)
    | .ok (room', rooms') => (.ok room', { s with rooms := rooms' })

/-- The room-list part of `ServerData::leave_room`: locate the first room with
the given id, check membership, remove every entry with the leaving player's
id (`retain_mut`), and drop the room if it became empty. -/
def leaveRooms (player_id : PlayerId) (room_id : RoomId) :
    List RoomData → Except Err (List RoomData)
  | [] => .error .UnknownRoom
  | room :: rest =>
    if room.id = room_id then
      if ¬ room.players.any (fun player => player.id = player_id) then
        .error .NotInRoom
      else
        if (room.players.filter (fun player => ¬ player.id = player_id)).isEmpty then
          .ok rest
        else
          .ok ({ room with
            players := room.players.filter (fun player => ¬ player.id = player_id) } :: rest)
    else
      match leaveRooms player_id room_id rest with
      | .error e => .error e
      | .ok rest' => .ok (room :: rest')

/-- `ServerData::leave_room`. -/
def ServerData.leave_room (s : ServerData) (player_id : PlayerId) (room_id : RoomId) :
    Except Err Unit × ServerData :=
  match s.players.find? (fun player => player.id = player_id) with
  | none => (.error .UnknownPlayer, s)
  | some _ =>
    match leaveRooms player_id room_id s.rooms with
    | .error e => (.error e, s)
    | .ok rooms' => (.ok (), { s with rooms := rooms' })

/-- `ServerData::get_room_data` (read-only). -/
def ServerData.get_room_data (s : ServerData) (player_id : PlayerId) (room_id : RoomId) :
    Except Err RoomData :=
  match s.players.find? (fun player => player.id = player_id) with
  | none => .error .UnknownPlayer
  | some _ =>
    match s.rooms.find? (fun room => room.id = room_id) with
    | none => .error .UnknownRoom
    | some room_data =>
      if ¬ room_data.players.any (fun player => player.id = player_id) then
        .error .NotInRoom
      else
        .ok room_data

/-- The position of the first player with the given id in a player list
(Rust: `players.iter().enumerate().find(|(_, p)| p.id == player_id)`). -/
def playerIdx (player_id : PlayerId) : List PlayerData → Option Nat
  | [] => none
  | player :: rest =>
    if player.id = player_id then some 0
    else (playerIdx player_id rest).map (· + 1)

/-- The room-list part of `ServerData::launch_room`: locate the first room
with the given id, run the membership / host / capacity checks, and remove the
room from the list on success. -/
def launchFind (player_id : PlayerId) (room_id : RoomId) :
    List RoomData → Except Err (RoomData × List RoomData)
  | [] => .error .UnknownRoom
  | room :: rest =>
    if room.id = room_id then
      match playerIdx player_id room.players with
      | none => .error .NotInRoom
      | some player_index =>
        if player_index ≠ 0 then .error .NotHost
        else if room.players.length ≠ room.settings.player_count then
          .error .RoomNotFull
        else
          .ok (room, rest)
    else
      match launchFind player_id room_id rest with
      | .error e => .error e
      | .ok (room', rest') => .ok (room', room :: rest')

/-- `ServerData::launch_room`. -/
def ServerData.launch_room (s : ServerData) (player_id : PlayerId) (room_id : RoomId) :
    Except Err GameData × ServerData :=
  match s.players.find? (fun player => player.id = player_id) with
  | none => (.error .UnknownPlayer, s)
  | some _ =>
    match launchFind player_id room_id s.rooms with
    | .error e => (.error e, s)
    | .ok (room_data, rooms') =>
      let (game_data, s1) := s.create_game room_data
      (.ok game_data,
       { s1 with games := s1.games ++ [game_data], rooms := rooms' })

/-- `ServerData::get_game_data` (read-only). -/
def ServerData.get_game_data (s : ServerData) (player_id : PlayerId) (game_id : GameId) :
    Except Err GameData :=
  match s.players.find? (fun player => player.id = player_id) with
  | none => .error .UnknownPlayer
  | some _ =>
    match s.games.find? (fun game => game.id = game_id) with
    | none => .error .UnknownGame
    | some game_data =>
      if ¬ game_data.players.any (fun pc => pc.1.id = player_id) then
        .error .NotInGame
      else
        .ok game_data

/-- `inputs.entry(player_id).and_modify(|e| *e = action).or_insert(action)`:
replace the action of a present key, otherwise add a new entry. -/
def insertAction (inputs : List (PlayerId × ActionKind)) (player_id : PlayerId)
    (action : ActionKind) : List (PlayerId × ActionKind) :=
  if inputs.any (fun kv => kv.1 = player_id) then
    inputs.map (fun kv => if kv.1 = player_id then (kv.1, action) else kv)
  else
    inputs ++ [(player_id, action)]

/-- The resolution trigger of `play_round`: no player of the game is missing
from `current_round.inputs`. -/
def allSubmitted (g : GameData) : Bool :=
  ! g.players.any (fun pc =>
      ! g.current_round.inputs.any (fun kv => kv.1 = pc.1.id))

/-- The `match` on the two actions inside the resolution loop of
`play_round`: Rock/Rock, Paper/Paper, Scissors/Scissors draw; Rock loses to
Paper, Paper to Scissors, Scissors to Rock; Rock beats Scissors, Paper beats
Rock, Scissors beats Paper. -/
def pairResult (p1 p2 : PlayerId × ActionKind) : RoundResult :=
  match p1.2, p2.2 with
  | .Rock, .Rock | .Paper, .Paper | .Scissors, .Scissors => .Draw
  | .Rock, .Paper | .Paper, .Scissors | .Scissors, .Rock => .Winner p2.1
  | .Rock, .Scissors | .Paper, .Rock | .Scissors, .Paper => .Winner p1.1

/-- The score bump performed inside the resolution loop: every player entry
whose id is the winning id gets one point; a draw changes nothing. -/
def applyResult (players : List (PlayerData × Nat)) :
    RoundResult → List (PlayerData × Nat)
  | .Draw => players
  | .Winner w =>
    players.map (fun pc => if pc.1.id = w then (pc.1, pc.2 + 1) else pc)

/-- The inner `for second_player_id in iter` loop of `play_round`: fight the
fixed first entry against every later entry, accumulating results and score
bumps. -/
def innerLoop (p1 : PlayerId × ActionKind) :
    List (PlayerId × ActionKind) → List (PlayerData × Nat) →
    List RoundResult × List (PlayerData × Nat)
  | [], players => ([], players)
  | p2 :: tl, players =>
    let r := pairResult p1 p2
    let (rs, players') := innerLoop p1 tl (applyResult players r)
    (r :: rs, players')

/-- The outer `while let Some(first_player_id) = keys.next()` loop of
`play_round`, over the key order `l` presented by the inputs map. -/
def outerLoop :
    List (PlayerId × ActionKind) → List (PlayerData × Nat) →
    List RoundResult × List (PlayerData × Nat)
  | [], players => ([], players)
  | p1 :: rest, players =>
    let (rs1, players1) := innerLoop p1 rest players
    let (rs2, players2) := outerLoop rest players1
    (rs1 ++ rs2, players2)

/-- The iteration order a `HashMap` presents is unspecified; the embedding
accepts any permutation of the stored entries from the order oracle `ord` and
falls back to insertion order otherwise. -/
def usedOrder (ord inputs : List (PlayerId × ActionKind)) :
    List (PlayerId × ActionKind) :=
  if ord.isPerm inputs then ord else inputs

/-- `players.iter().max_by(.. score ..)`, keeping only the maximal score. -/
def maxScore? : List (PlayerData × Nat) → Option Nat
  | [] => none
  | pc :: rest =>
    match maxScore? rest with
    | none => some pc.2
    | some m => some (max pc.2 m)

/-- The resolution step of `play_round`, entered once every player has
submitted: run the all-pairs loop in the iteration order of the inputs map
(the oracle `ord`), store the result, move the round to the history, reset
`current_round`, and evaluate the end condition. -/
def resolveGame (ord : List (PlayerId × ActionKind)) (g : GameData) : GameData :=
  let l := usedOrder ord g.current_round.inputs
  let (round_results, players') := outerLoop l g.players
  let finished : RoundData :=
    { inputs := g.current_round.inputs, result := some round_results }
  let g1 : GameData :=
    { g with players := players',
             round_history := g.round_history ++ [finished],
             current_round := RoundData.default }
  match g1.settings.end_condition with
  | .TotalRounds x =>
    if g1.round_history.length = x then { g1 with status := .Ended } else g1
  | .FirstToScore x =>
    match maxScore? g1.players with
    | some m => if m = x then { g1 with status := .Ended } else g1
    | none => g1

/-- The recording half of `play_round`: overwrite or add the player's action
in `current_round.inputs`, leaving everything else untouched. -/
def recordAction (g : GameData) (player_id : PlayerId) (action : ActionKind) :
    GameData :=
  { g with current_round :=
    { g.current_round with
      inputs := insertAction g.current_round.inputs player_id action } }

/-- The per-game body of `play_round` after the checks: record the action and
resolve the round if everyone has now submitted. -/
def stepGame (player_id : PlayerId) (action : ActionKind)
    (ord : List (PlayerId × ActionKind)) (g : GameData) : GameData :=
  let g0 := recordAction g player_id action
  if allSubmitted g0 then resolveGame ord g0 else g0

/-- The game-list part of `ServerData::play_round`: locate the first game with
the given id (`iter_mut().find`), run the membership and status checks, and
apply `stepGame` to it. -/
def playGames (player_id : PlayerId) (game_id : GameId) (action : ActionKind)
    (ord : List (PlayerId × ActionKind)) :
    List GameData → Except Err (GameData × List GameData)
  | [] => .error .UnknownGame
  | g :: rest =>
    if g.id = game_id then
      if ¬ g.players.any (fun pc => pc.1.id = player_id) then
        .error .NotInGame
      else if g.status ≠ .Running then
        .error .GameEnded
      else
        let g' := stepGame player_id action ord g
        .ok (g', g' :: rest)
    else
      match playGames player_id game_id action ord rest with
      | .error e => .error e
      | .ok (g', rest') => .ok (g', g :: rest')

/-- `ServerData::play_round`.  `ord` is the order oracle for the inputs map's
key iteration (see the header comment). -/
def ServerData.play_round (s : ServerData) (player_id : PlayerId) (game_id : GameId)
    (action : ActionKind) (ord : List (PlayerId × ActionKind)) :
    Except Err GameData × ServerData :=
  match s.players.find? (fun player => player.id = player_id) with
  | none => (.error .UnknownPlayer, s)
  | some _ =>
    match playGames player_id game_id action ord s.games with
    | .error e => (.error e, s)
    | .ok (g', games') => (.ok g', { s with games := games' })

/-- `ServerData::get_rooms_list` (read-only). -/
def ServerData.get_rooms_list (s : ServerData) : List RoomData := s.rooms

/-- The operation surface of the session store (§6 of the spec). -/
inductive Op where
  | registerPlayer (name : String)
  | createRoom (player_id : PlayerId) (room_name : String) (settings : Option GameSettings)
  | joinRoom (player_id : PlayerId) (room_id : RoomId)
  | leaveRoom (player_id : PlayerId) (room_id : RoomId)
  | getRoom (player_id : PlayerId) (room_id : RoomId)
  | launchRoom (player_id : PlayerId) (room_id : RoomId)
  | getGame (player_id : PlayerId) (game_id : GameId)
  | playRound (player_id : PlayerId) (game_id : GameId) (action : ActionKind)
      (ord : List (PlayerId × ActionKind))

/-- The success payloads of the operation surface. -/
inductive OpOut where
  | player (p : PlayerData)
  | room (r : RoomData)
  | unit
  | game (g : GameData)
deriving DecidableEq

/-- Dispatch one operation against the store, returning the outcome and the
state at the point of return. -/
def runOp (s : ServerData) : Op → Except Err OpOut × ServerData
  | .registerPlayer name =>
    let (r, s') := s.create_player_with_name name
    (r.map .player, s')
  | .createRoom player_id room_name settings =>
    let (r, s') := s.create_room player_id room_name settings
    (r.map .room, s')
  | .joinRoom player_id room_id =>
    let (r, s') := s.join_room player_id room_id
    (r.map .room, s')
  | .leaveRoom player_id room_id =>
    let (r, s') := s.leave_room player_id room_id
    (r.map (fun _ => .unit), s')
  | .getRoom player_id room_id =>
    ((s.get_room_data player_id room_id).map .room, s)
  | .launchRoom player_id room_id =>
    let (r, s') := s.launch_room player_id room_id
    (r.map .game, s')
  | .getGame player_id game_id =>
    ((s.get_game_data player_id game_id).map .game, s)
  | .playRound player_id game_id action ord =>
    let (r, s') := s.play_round player_id game_id action ord
    (r.map .game, s')

/-- The state after one operation. -/
def applyOp (s : ServerData) (op : Op) : ServerData := (runOp s op).2

/-- All ordered pairs `(x, y)` with `x` before `y` in `l` (outer loop over
`l`, inner loop over the remaining later entries, in order). -/
def pairsList :
    List (PlayerId × ActionKind) →
    List ((PlayerId × ActionKind) × (PlayerId × ActionKind))
  | [] => []
  | x :: xs => xs.map (fun y => (x, y)) ++ pairsList xs

/-- The result sequence produced by fighting every pair of `l` in pair order. -/
def resultsList (l : List (PlayerId × ActionKind)) : List RoundResult :=
  (pairsList l).map (fun pr => pairResult pr.1 pr.2)

/-- Modelled from the spec's words (solely for comparison with the code): the
round inputs arranged in the game's `players` order, the order in which the
spec says pairs are enumerated. -/
def specPlayersOrderInputs (g : GameData) : List (PlayerId × ActionKind) :=
  g.players.filterMap (fun pc =>
    g.current_round.inputs.find? (fun kv => kv.1 = pc.1.id))

/-- Modelled from the spec's words (solely for comparison with the code): the
beats-relation — Rock beats Scissors, Scissors beats Paper, Paper beats Rock. -/
def specBeats : ActionKind → ActionKind → Bool
  | .Rock, .Scissors => true
  | .Scissors, .Paper => true
  | .Paper, .Rock => true
  | _, _ => false

/-- The action recorded for a player in the inputs map. -/
def lookupAction (inputs : List (PlayerId × ActionKind)) (pid : PlayerId) :
    Option ActionKind :=
  (inputs.find? (fun kv => kv.1 = pid)).map (fun kv => kv.2)

/-- States reachable from the fresh store by any sequence of operations. -/
inductive Reachable : ServerData → Prop where
  | init : Reachable ServerData.init
  | step {s : ServerData} (op : Op) : Reachable s → Reachable (applyOp s op)

/-! ### The resolution loops -/

theorem innerLoop_fst (p1 : PlayerId × ActionKind)
    (tl : List (PlayerId × ActionKind)) (ps : List (PlayerData × Nat)) :
    (innerLoop p1 tl ps).1 = tl.map (fun p2 => pairResult p1 p2) := by
  induction tl generalizing ps with
  | nil => rfl
  | cons p2 t ih => simp [innerLoop, ih]

theorem innerLoop_snd (p1 : PlayerId × ActionKind)
    (tl : List (PlayerId × ActionKind)) (ps : List (PlayerData × Nat)) :
    (innerLoop p1 tl ps).2
      = (tl.map (fun p2 => pairResult p1 p2)).foldl applyResult ps := by
  induction tl generalizing ps with
  | nil => rfl
  | cons p2 t ih => simp [innerLoop, ih]

theorem outerLoop_fst (l : List (PlayerId × ActionKind))
    (ps : List (PlayerData × Nat)) :
    (outerLoop l ps).1 = resultsList l := by
  induction l generalizing ps with
  | nil => rfl
  | cons p1 rest ih =>
    simp [outerLoop, resultsList, pairsList, innerLoop_fst, ih]

theorem outerLoop_snd (l : List (PlayerId × ActionKind))
    (ps : List (PlayerData × Nat)) :
    (outerLoop l ps).2 = (resultsList l).foldl applyResult ps := by
  induction l generalizing ps with
  | nil => rfl
  | cons p1 rest ih =>
    simp only [outerLoop, resultsList, pairsList, List.map_append,
      List.foldl_append, innerLoop_snd, List.map_map, Function.comp]
    rw [ih, resultsList]
    simp [Function.comp_def]

theorem foldl_applyResult (rs : List RoundResult) (ps : List (PlayerData × Nat)) :
    rs.foldl applyResult ps
      = ps.map (fun pc => (pc.1, pc.2 + rs.count (RoundResult.Winner pc.1.id))) := by
  induction rs generalizing ps with
  | nil => simp
  | cons r t ih =>
    cases r with
    | Draw =>
      rw [List.foldl_cons]
      show t.foldl applyResult ps = _
      rw [ih]
      congr 1
    | Winner w =>
      rw [List.foldl_cons, ih, applyResult, List.map_map]
      congr 1
      funext pc
      by_cases h : pc.1.id = w
      · simp [Function.comp, h, List.count_cons]
        omega
      · simp [Function.comp, h, List.count_cons, Ne.symm h]

/-- The per-player score delta of one resolution pass: each player gains one
point per `Winner` entry carrying their id. -/
theorem outerLoop_scores (l : List (PlayerId × ActionKind))
    (ps : List (PlayerData × Nat)) :
    (outerLoop l ps).2
      = ps.map (fun pc => (pc.1, pc.2 + (resultsList l).count (.Winner pc.1.id))) := by
  rw [outerLoop_snd, foldl_applyResult]

/-- C3: when a round resolves, each pair is decided by the fixed
beats-relation (Rock beats Scissors, Scissors beats Paper, Paper beats Rock,
tie on equal actions): the code's pair match equals the spec's beats-relation
presentation, and each player's cumulative score increases by exactly their
number of pairwise wins this round (one point per won pair, nothing for
draws, not capped at one point per round). -/
theorem pairwise_scoring_correct :
    (∀ (i1 i2 : PlayerId) (a1 a2 : ActionKind),
        pairResult (i1, a1) (i2, a2)
          = if a1 = a2 then .Draw
            else if specBeats a1 a2 then .Winner i1
            else .Winner i2) ∧
    (∀ (l : List (PlayerId × ActionKind)) (ps : List (PlayerData × Nat)),
        (outerLoop l ps).2
          = ps.map (fun pc =>
              (pc.1, pc.2 + (resultsList l).count (.Winner pc.1.id)))) := by
  constructor
  · intro i1 i2 a1 a2
    cases a1 <;> cases a2 <;> simp [pairResult, specBeats]
  · exact outerLoop_scores

/-! ### Round-result ordering (C1) -/

/-- C1 (amended): when a round resolves, the result sequence is the pairwise
enumeration (outer loop, then the remaining later entries) of the inputs
map's key iteration order — one result per unordered pair of distinct
players — but that order is the `HashMap`'s unspecified iteration order (any
permutation of the submitted entries), not the game's `players` order, so the
sequence order is not determined by player order alone. -/
theorem round_result_order (ord : List (PlayerId × ActionKind)) (g : GameData) :
    (resolveGame ord g).round_history.getLast?
      = some { inputs := g.current_round.inputs,
               result := some (resultsList (usedOrder ord g.current_round.inputs)) } ∧
    (resolveGame ord g).current_round = RoundData.default := by
  unfold resolveGame
  cases hend : g.settings.end_condition with
  | TotalRounds x =>
    simp only [hend, outerLoop_fst]
    split <;> simp
  | FirstToScore x =>
    simp only [hend, outerLoop_fst]
    split
    · split <;> simp
    · simp

/-- A concrete resolving three-player game (players `0, 1, 2` in order,
actions Rock, Paper, Scissors) used to refute the claimed ordering. -/
def gOrder : GameData :=
  { id := 0,
    settings := { kind := .RockPaperScissors, player_count := 3,
                  end_condition := .TotalRounds 5 },
    players := [({ id := 0, name := "a" }, 0), ({ id := 1, name := "b" }, 0),
                ({ id := 2, name := "c" }, 0)],
    current_round := { inputs := [(0, .Rock), (1, .Paper), (2, .Scissors)],
                       result := none },
    round_history := [],
    status := .Running }

/-- An iteration order the `HashMap` may present: the submitted entries in
reverse player order. -/
def ordRev : List (PlayerId × ActionKind) :=
  [(2, .Scissors), (1, .Paper), (0, .Rock)]

/-- C1 is refuted on the code: for the resolving game `gOrder`, the iteration
order `ordRev` (a permutation of the inputs, hence an order the `HashMap` may
present) produces the result sequence `[Winner 2, Winner 0, Winner 1]`,
whereas enumeration in `players` order gives `[Winner 1, Winner 0, Winner 2]`
— the result sequence is not the player-order pair enumeration. -/
theorem round_result_order_counterexample :
    ordRev.isPerm gOrder.current_round.inputs = true ∧
    (resolveGame ordRev gOrder).round_history
      = [{ inputs := gOrder.current_round.inputs,
           result := some [.Winner 2, .Winner 0, .Winner 1] }] ∧
    resultsList (specPlayersOrderInputs gOrder)
      = [.Winner 1, .Winner 0, .Winner 2] ∧
    ([RoundResult.Winner 2, .Winner 0, .Winner 1]
      ≠ [RoundResult.Winner 1, .Winner 0, .Winner 2]) := by
  refine ⟨by decide, by decide, by decide, by decide⟩

/-! ### End condition FirstToScore (C2) -/

/-- C2 (amended): after a round of a running `FirstToScore n` game resolves,
the game is `Ended` iff the maximum cumulative score across all players is
exactly `n`; a score that jumps past `n` inside one multi-win round does not
end the game. -/
theorem first_to_score_ends_iff_max (ord : List (PlayerId × ActionKind))
    (g : GameData) (n : Nat)
    (hend : g.settings.end_condition = .FirstToScore n)
    (hrun : g.status = .Running) :
    ((resolveGame ord g).status = .Ended
      ↔ maxScore? (resolveGame ord g).players = some n) := by
  unfold resolveGame
  simp only [hend]
  split
  · rename_i m hm
    split
    · rename_i hmn
      simp [hm, hmn]
    · rename_i hmn
      simp [hm, hrun, hmn]
  · rename_i hm
    simp [hm, hrun]

/-- A concrete witness game for C2: two players, `FirstToScore 1`, the round
Rock vs Scissors gives player 0 the point and the maximum becomes exactly 1. -/
def gReach : GameData :=
  { id := 0,
    settings := { kind := .RockPaperScissors, player_count := 2,
                  end_condition := .FirstToScore 1 },
    players := [({ id := 0, name := "a" }, 0), ({ id := 1, name := "b" }, 0)],
    current_round := { inputs := [(0, .Rock), (1, .Scissors)], result := none },
    round_history := [],
    status := .Running }

theorem first_to_score_ends_iff_max_witness :
    (resolveGame gReach.current_round.inputs gReach).status = .Ended
      ↔ maxScore? (resolveGame gReach.current_round.inputs gReach).players = some 1 :=
  first_to_score_ends_iff_max gReach.current_round.inputs gReach 1 rfl rfl

/-- A concrete running three-player `FirstToScore 2` game in which player 0
(at score 1) wins both pairs of the round, jumping to score 3. -/
def gOvershoot : GameData :=
  { id := 0,
    settings := { kind := .RockPaperScissors, player_count := 3,
                  end_condition := .FirstToScore 2 },
    players := [({ id := 0, name := "a" }, 1), ({ id := 1, name := "b" }, 0),
                ({ id := 2, name := "c" }, 0)],
    current_round := { inputs := [(0, .Rock), (1, .Scissors), (2, .Scissors)],
                       result := none },
    round_history := [],
    status := .Running }

/-- C2 is refuted on the code in its "reaches n" reading: in `gOvershoot`
(running, `FirstToScore 2`) the round takes player 0 from score 1 to score 3,
so a player's cumulative score has reached 2, yet the game stays `Running`
because the maximum (3) is not exactly 2. -/
theorem first_to_score_overshoot_counterexample :
    gOvershoot.settings.end_condition = .FirstToScore 2 ∧
    gOvershoot.status = .Running ∧
    (resolveGame gOvershoot.current_round.inputs gOvershoot).players.any
        (fun pc => 2 ≤ pc.2) = true ∧
    (resolveGame gOvershoot.current_round.inputs gOvershoot).status = .Running := by
  refine ⟨by decide, by decide, by decide, by decide⟩

/-! ### Errors do not mutate (C4) -/

/-- C4: every operation of the session store either succeeds or fails with
one error kind, and a failing call leaves the state exactly as it was: every
check precedes every mutation. -/
theorem error_preserves_state (s : ServerData) (op : Op) (e : Err)
    (h : (runOp s op).1 = .error e) : (runOp s op).2 = s := by
  cases op with
  | registerPlayer name =>
    by_cases hc : s.players.any (fun player => player.name = name) <;>
      simp [runOp, Except.map, ServerData.create_player_with_name, hc] at h ⊢
  | createRoom pid rn stg =>
    cases hf : s.players.find? (fun player => player.id = pid) <;>
      simp [runOp, Except.map, ServerData.create_room, hf] at h ⊢
  | joinRoom pid rid =>
    cases hf : s.players.find? (fun player => player.id = pid) with
    | none => simp [runOp, Except.map, ServerData.join_room, hf]
    | some pd =>
      cases hj : joinRooms pd pid rid s.rooms <;>
        simp [runOp, Except.map, ServerData.join_room, hf, hj] at h ⊢
  | leaveRoom pid rid =>
    cases hf : s.players.find? (fun player => player.id = pid) with
    | none => simp [runOp, Except.map, ServerData.leave_room, hf]
    | some pd =>
      cases hl : leaveRooms pid rid s.rooms <;>
        simp [runOp, Except.map, ServerData.leave_room, hf, hl] at h ⊢
  | getRoom pid rid => rfl
  | launchRoom pid rid =>
    cases hf : s.players.find? (fun player => player.id = pid) with
    | none => simp [runOp, Except.map, ServerData.launch_room, hf]
    | some pd =>
      cases hl : launchFind pid rid s.rooms <;>
        simp [runOp, Except.map, ServerData.launch_room, ServerData.create_game, hf, hl] at h ⊢
  | getGame pid gid => rfl
  | playRound pid gid act ord =>
    cases hf : s.players.find? (fun player => player.id = pid) with
    | none => simp [runOp, Except.map, ServerData.play_round, hf]
    | some pd =>
      cases hp : playGames pid gid act ord s.games <;>
        simp [runOp, Except.map, ServerData.play_round, hf, hp] at h ⊢

theorem error_preserves_state_witness :
    (runOp ServerData.init (Op.joinRoom 0 0)).1 = .error .UnknownPlayer ∧
    (runOp ServerData.init (Op.joinRoom 0 0)).2 = ServerData.init :=
  ⟨rfl, error_preserves_state ServerData.init (Op.joinRoom 0 0) .UnknownPlayer rfl⟩

/-! ### Room-list preservation machinery -/

theorem joinRooms_ok_forall {P : RoomData → Prop} {pd : PlayerData}
    {pid rid : Int} {rooms : List RoomData} {out : RoomData × List RoomData}
    (h : joinRooms pd pid rid rooms = .ok out)
    (hstep : ∀ r : RoomData, P r →
      r.players.any (fun player => player.id = pid) = false →
      r.players.length < r.settings.player_count →
      P { r with players := r.players ++ [pd] })
    (hP : ∀ r ∈ rooms, P r) :
    ∀ r ∈ out.2, P r := by
  induction rooms generalizing out with
  | nil => simp [joinRooms] at h
  | cons room rest ih =>
    rw [joinRooms] at h
    split at h
    · split at h
      · exact absurd h (by simp)
      · split at h
        · exact absurd h (by simp)
        · rename_i hmem hfull
          injection h with h'
          subst h'
          intro r hr
          rcases List.mem_cons.mp hr with rfl | hr
          · exact hstep room (hP room (by simp)) (by simpa using hmem)
              (by omega)
          · exact hP r (List.mem_cons_of_mem _ hr)
    · split at h
      · exact absurd h (by simp)
      · rename_i rd rest' heq
        injection h with h'
        subst h'
        intro r hr
        rcases List.mem_cons.mp hr with rfl | hr
        · exact hP r (by simp)
        · exact ih heq (fun r' hr' => hP r' (List.mem_cons_of_mem _ hr')) r hr

theorem leaveRooms_ok_forall {P : RoomData → Prop} {pid rid : Int}
    {rooms rooms' : List RoomData}
    (h : leaveRooms pid rid rooms = .ok rooms')
    (hstep : ∀ r : RoomData, P r →
      (r.players.filter (fun player => ¬ player.id = pid)).isEmpty = false →
      P { r with players := r.players.filter (fun player => ¬ player.id = pid) })
    (hP : ∀ r ∈ rooms, P r) :
    ∀ r ∈ rooms', P r := by
  induction rooms generalizing rooms' with
  | nil => simp [leaveRooms] at h
  | cons room rest ih =>
    rw [leaveRooms] at h
    split at h
    · split at h
      · exact absurd h (by simp)
      · split at h
        · injection h with h'
          subst h'
          exact fun r hr => hP r (List.mem_cons_of_mem _ hr)
        · rename_i hkept
          injection h with h'
          subst h'
          intro r hr
          rcases List.mem_cons.mp hr with rfl | hr
          · exact hstep room (hP room (by simp)) (by simpa using hkept)
          · exact hP r (List.mem_cons_of_mem _ hr)
    · split at h
      · exact absurd h (by simp)
      · rename_i rest' heq
        injection h with h'
        subst h'
        intro r hr
        rcases List.mem_cons.mp hr with rfl | hr
        · exact hP r (by simp)
        · exact ih heq (fun r' hr' => hP r' (List.mem_cons_of_mem _ hr')) r hr

theorem launchFind_ok_sub {pid rid : Int} {rooms : List RoomData}
    {out : RoomData × List RoomData}
    (h : launchFind pid rid rooms = .ok out) :
    ∀ r ∈ out.2, r ∈ rooms := by
  induction rooms generalizing out with
  | nil => simp [launchFind] at h
  | cons room rest ih =>
    rw [launchFind] at h
    split at h
    · split at h
      · exact absurd h (by simp)
      · split at h
        · exact absurd h (by simp)
        · split at h
          · exact absurd h (by simp)
          · injection h with h'
            subst h'
            exact fun r hr => List.mem_cons_of_mem _ hr
    · split at h
      · exact absurd h (by simp)
      · rename_i rd rest' heq
        injection h with h'
        subst h'
        intro r hr
        rcases List.mem_cons.mp hr with rfl | hr
        · exact List.mem_cons_self _ _
        · exact List.mem_cons_of_mem _ (ih heq r hr)

/-- A per-room property preserved by room creation, by a guarded join, and by
a guarded leave is preserved by every operation of the store. -/
theorem rooms_forall_step {P : RoomData → Prop} (s : ServerData) (op : Op)
    (hP : ∀ r ∈ s.rooms, P r)
    (hcreate : ∀ (pd : PlayerData) (rid : Int) (nm : String)
        (stg : Option GameSettings),
        P { id := rid, name := nm, settings := stg.getD defaultSettings,
            players := [pd] })
    (hjoin : ∀ (pd : PlayerData) (r : RoomData), P r →
        r.players.any (fun player => player.id = pd.id) = false →
        r.players.length < r.settings.player_count →
        P { r with players := r.players ++ [pd] })
    (hleave : ∀ (pid : Int) (r : RoomData), P r →
        (r.players.filter (fun player => ¬ player.id = pid)).isEmpty = false →
        P { r with players := r.players.filter (fun player => ¬ player.id = pid) }) :
    ∀ r ∈ (applyOp s op).rooms, P r := by
  cases op with
  | registerPlayer name =>
    by_cases hc : s.players.any (fun player => player.name = name) <;>
      simpa [applyOp, runOp, ServerData.create_player_with_name, hc] using hP
  | createRoom pid nm stg =>
    cases hf : s.players.find? (fun player => player.id = pid) with
    | none => simpa [applyOp, runOp, ServerData.create_room, hf] using hP
    | some pd =>
      intro r hr
      simp [applyOp, runOp, ServerData.create_room, hf] at hr
      rcases hr with hr | rfl
      · exact hP r hr
      · exact hcreate pd s.next_room_id nm stg
  | joinRoom pid rid =>
    cases hf : s.players.find? (fun player => player.id = pid) with
    | none => simpa [applyOp, runOp, ServerData.join_room, hf] using hP
    | some pd =>
      cases hj : joinRooms pd pid rid s.rooms with
      | error e => simpa [applyOp, runOp, ServerData.join_room, hf, hj] using hP
      | ok out =>
        have hpd : pd.id = pid := by
          have := List.find?_some hf
          simpa using this
        intro r hr
        refine joinRooms_ok_forall hj ?_ hP r
          (by simpa [applyOp, runOp, ServerData.join_room, hf, hj] using hr)
        intro r' h1 h2 h3
        exact hjoin pd r' h1 (by rw [hpd]; exact h2) h3
  | leaveRoom pid rid =>
    cases hf : s.players.find? (fun player => player.id = pid) with
    | none => simpa [applyOp, runOp, ServerData.leave_room, hf] using hP
    | some pd =>
      cases hl : leaveRooms pid rid s.rooms with
      | error e => simpa [applyOp, runOp, ServerData.leave_room, hf, hl] using hP
      | ok rooms' =>
        intro r hr
        refine leaveRooms_ok_forall hl (fun r' h1 h2 => hleave pid r' h1 h2) hP r
          (by simpa [applyOp, runOp, ServerData.leave_room, hf, hl] using hr)
  | getRoom pid rid => exact hP
  | launchRoom pid rid =>
    cases hf : s.players.find? (fun player => player.id = pid) with
    | none => simpa [applyOp, runOp, ServerData.launch_room, hf] using hP
    | some pd =>
      cases hl : launchFind pid rid s.rooms with
      | error e =>
        simpa [applyOp, runOp, ServerData.launch_room, ServerData.create_game,
          hf, hl] using hP
      | ok out =>
        intro r hr
        refine hP r (launchFind_ok_sub hl r ?_)
        simpa [applyOp, runOp, ServerData.launch_room, ServerData.create_game,
          hf, hl] using hr
  | getGame pid gid => exact hP
  | playRound pid gid act ord =>
    cases hf : s.players.find? (fun player => player.id = pid) with
    | none => simpa [applyOp, runOp, ServerData.play_round, hf] using hP
    | some pd =>
      cases hp : playGames pid gid act ord s.games <;>
        simpa [applyOp, runOp, ServerData.play_round, hf, hp] using hP

/-- A per-room property preserved by creation, guarded join and guarded
leave holds in every reachable state. -/
theorem rooms_forall_reachable {P : RoomData → Prop}
    (hcreate : ∀ (pd : PlayerData) (rid : Int) (nm : String)
        (stg : Option GameSettings),
        P { id := rid, name := nm, settings := stg.getD defaultSettings,
            players := [pd] })
    (hjoin : ∀ (pd : PlayerData) (r : RoomData), P r →
        r.players.any (fun player => player.id = pd.id) = false →
        r.players.length < r.settings.player_count →
        P { r with players := r.players ++ [pd] })
    (hleave : ∀ (pid : Int) (r : RoomData), P r →
        (r.players.filter (fun player => ¬ player.id = pid)).isEmpty = false →
        P { r with players := r.players.filter (fun player => ¬ player.id = pid) })
    (s : ServerData) (h : Reachable s) :
    ∀ r ∈ s.rooms, P r := by
  induction h with
  | init => intro r hr; simp [ServerData.init] at hr
  | step op _ ih => exact rooms_forall_step _ op ih hcreate hjoin hleave

/-! ### Room capacity invariant (C5) -/

/-- C5 (amended): in every reachable state each room has at least one player,
and at most `max(player_count, 1)` players: join keeps rooms within their
declared capacity and an emptied room is deleted, but room creation seeds the
host without validating the capacity, so a room created with the degenerate
`player_count = 0` holds one player and exceeds `player_count`. -/
theorem room_capacity_invariant (s : ServerData) (h : Reachable s) :
    ∀ r ∈ s.rooms, 0 < r.players.length ∧
      r.players.length ≤ max r.settings.player_count 1 := by
  refine rooms_forall_reachable ?_ ?_ ?_ s h
  · intro pd rid nm stg
    simp
  · intro pd r hr _ hlen
    have := le_max_left r.settings.player_count 1
    constructor
    · simp
    · simp only [List.length_append, List.length_singleton]
      omega
  · intro pid r hr hne
    constructor
    · refine List.length_pos.mpr ?_
      intro hnil
      dsimp only at hnil
      rw [hnil] at hne
      simp at hne
    · have hle := List.length_filter_le (fun player => ¬ player.id = pid) r.players
      exact le_trans hle hr.2

def sCap : ServerData :=
  applyOp (applyOp ServerData.init (.registerPlayer "alice"))
    (.createRoom 0 "lobby" none)

def roomCap : RoomData :=
  { id := 0, name := "lobby", settings := defaultSettings,
    players := [{ id := 0, name := "alice" }] }

theorem room_capacity_invariant_witness :
    0 < roomCap.players.length ∧
    roomCap.players.length ≤ max roomCap.settings.player_count 1 :=
  room_capacity_invariant sCap
    (Reachable.step (Op.createRoom 0 "lobby" none)
      (Reachable.step (Op.registerPlayer "alice") Reachable.init))
    roomCap (by decide)

def settingsZero : GameSettings :=
  { kind := .RockPaperScissors, player_count := 0,
    end_condition := .FirstToScore 3 }

def sZero : ServerData :=
  applyOp (applyOp ServerData.init (.registerPlayer "alice"))
    (.createRoom 0 "empty-cap" (some settingsZero))

/-- C5 is refuted on the code as stated: `create_room` never validates the
supplied settings, so after registering a player and creating a room with
`player_count = 0` the reachable state holds a room with one player but
capacity zero, violating `len(players) <= settings.player_count`. -/
theorem room_capacity_counterexample :
    Reachable sZero ∧
    ∃ r ∈ sZero.rooms, ¬ r.players.length ≤ r.settings.player_count := by
  refine ⟨Reachable.step (Op.createRoom 0 "empty-cap" (some settingsZero))
    (Reachable.step (Op.registerPlayer "alice") Reachable.init), ?_⟩
  decide

/-! ### No duplicate players in a room (C9) -/

/-- C9: in every reachable state, each room's player sequence has no
duplicated player id: creation seeds a single host, join rejects a player
already present before appending, and leave removes every entry with the
leaving id. -/
theorem room_players_nodup (s : ServerData) (h : Reachable s) :
    ∀ r ∈ s.rooms, (r.players.map (fun player => player.id)).Nodup := by
  refine rooms_forall_reachable ?_ ?_ ?_ s h
  · intro pd rid nm stg
    simp
  · intro pd r hr hne _
    simp only [List.map_append, List.map_cons, List.map_nil]
    rw [List.nodup_append]
    refine ⟨hr, by simp, ?_⟩
    intro a ha hb
    simp at hb
    subst hb
    simp only [List.mem_map] at ha
    rcases ha with ⟨p, hp, hpid⟩
    rw [List.any_eq_false] at hne
    exact absurd (by simpa using hpid) (by simpa using hne p hp)
  · intro pid r hr _
    refine List.Nodup.sublist ?_ hr
    exact List.Sublist.map _ (List.filter_sublist _)

def sNodup : ServerData :=
  applyOp (applyOp (applyOp (applyOp ServerData.init (.registerPlayer "alice"))
    (.registerPlayer "bob")) (.createRoom 0 "lobby" none)) (.joinRoom 1 0)

def roomNodup : RoomData :=
  { id := 0, name := "lobby", settings := defaultSettings,
    players := [{ id := 0, name := "alice" }, { id := 1, name := "bob" }] }

theorem room_players_nodup_witness :
    (roomNodup.players.map (fun player => player.id)).Nodup :=
  room_players_nodup sNodup
    (Reachable.step (Op.joinRoom 1 0)
      (Reachable.step (Op.createRoom 0 "lobby" none)
        (Reachable.step (Op.registerPlayer "bob")
          (Reachable.step (Op.registerPlayer "alice") Reachable.init))))
    roomNodup (by decide)

/-! ### Skipping unrelated list prefixes -/

theorem launchFind_append {pid rid : Int} (pre rest : List RoomData)
    (hpre : ∀ r ∈ pre, ¬ r.id = rid) :
    launchFind pid rid (pre ++ rest)
      = (launchFind pid rid rest).map (fun out => (out.1, pre ++ out.2)) := by
  induction pre with
  | nil =>
    simp only [List.nil_append]
    cases h : launchFind pid rid rest <;> simp [h, Except.map]
  | cons room pre' ih =>
    have hid : ¬ room.id = rid := hpre room (by simp)
    have ih' := ih (fun r hr => hpre r (List.mem_cons_of_mem _ hr))
    simp only [List.cons_append, launchFind, hid, if_false, List.append_eq]
    rw [ih']
    cases h : launchFind pid rid rest <;> simp [h, Except.map]

theorem launchFind_none {pid rid : Int} (rooms : List RoomData)
    (h : ∀ r ∈ rooms, ¬ r.id = rid) :
    launchFind pid rid rooms = .error .UnknownRoom := by
  induction rooms with
  | nil => rfl
  | cons room rest ih =>
    have hid : ¬ room.id = rid := h room (by simp)
    simp only [launchFind, hid, if_false]
    rw [ih (fun r hr => h r (List.mem_cons_of_mem _ hr))]

theorem joinRooms_append {pd : PlayerData} {pid rid : Int} (pre rest : List RoomData)
    (hpre : ∀ r ∈ pre, ¬ r.id = rid) :
    joinRooms pd pid rid (pre ++ rest)
      = (joinRooms pd pid rid rest).map (fun out => (out.1, pre ++ out.2)) := by
  induction pre with
  | nil =>
    simp only [List.nil_append]
    cases h : joinRooms pd pid rid rest <;> simp [h, Except.map]
  | cons room pre' ih =>
    have hid : ¬ room.id = rid := hpre room (by simp)
    have ih' := ih (fun r hr => hpre r (List.mem_cons_of_mem _ hr))
    simp only [List.cons_append, joinRooms, hid, if_false, List.append_eq]
    rw [ih']
    cases h : joinRooms pd pid rid rest <;> simp [h, Except.map]

theorem playGames_append {pid gid : Int} {act : ActionKind}
    {ord : List (PlayerId × ActionKind)} (pre rest : List GameData)
    (hpre : ∀ g ∈ pre, ¬ g.id = gid) :
    playGames pid gid act ord (pre ++ rest)
      = (playGames pid gid act ord rest).map (fun out => (out.1, pre ++ out.2)) := by
  induction pre with
  | nil =>
    simp only [List.nil_append]
    cases h : playGames pid gid act ord rest <;> simp [h, Except.map]
  | cons g pre' ih =>
    have hid : ¬ g.id = gid := hpre g (by simp)
    have ih' := ih (fun g' hg' => hpre g' (List.mem_cons_of_mem _ hg'))
    simp only [List.cons_append, playGames, hid, if_false, List.append_eq]
    rw [ih']
    cases h : playGames pid gid act ord rest <;> simp [h, Except.map]

/-! ### Launch (C6) -/

/-- C6: for a registered player who is a member of the first room carrying the
target id, launch succeeds iff the room is exactly full and the caller sits at
position 0 (the host); a non-host gets `NotHost`, a host of a non-full room
gets `RoomNotFull`; on success the room is deleted, so launching the same id
again fails with `UnknownRoom` — the operation is not idempotent. -/
theorem launch_room_iff (s : ServerData) (pid rid : Int) (pd : PlayerData)
    (pre post : List RoomData) (r : RoomData) (i : Nat)
    (hpd : s.players.find? (fun player => player.id = pid) = some pd)
    (hrooms : s.rooms = pre ++ r :: post)
    (hpre : ∀ r' ∈ pre, ¬ r'.id = rid)
    (hr : r.id = rid)
    (hidx : playerIdx pid r.players = some i) :
    ((s.launch_room pid rid).1.isOk = true
        ↔ (i = 0 ∧ r.players.length = r.settings.player_count)) ∧
    (i ≠ 0 → (s.launch_room pid rid).1 = .error .NotHost) ∧
    (i = 0 → r.players.length ≠ r.settings.player_count →
        (s.launch_room pid rid).1 = .error .RoomNotFull) ∧
    (i = 0 → r.players.length = r.settings.player_count →
        (s.launch_room pid rid).2.rooms = pre ++ post ∧
        ((∀ r' ∈ pre ++ post, ¬ r'.id = rid) →
          ((s.launch_room pid rid).2.launch_room pid rid).1
            = .error .UnknownRoom)) := by
  have hres : launchFind pid rid s.rooms
      = if i ≠ 0 then .error .NotHost
        else if r.players.length ≠ r.settings.player_count then .error .RoomNotFull
        else .ok (r, pre ++ post) := by
    rw [hrooms, launchFind_append pre _ hpre]
    simp only [launchFind, hr, if_pos rfl, hidx]
    by_cases hi : i = 0 <;>
      by_cases hlen : r.players.length = r.settings.player_count <;>
        simp [hi, hlen, Except.map]
  refine ⟨?_, ?_, ?_, ?_⟩
  · by_cases hi : i = 0 <;>
      by_cases hlen : r.players.length = r.settings.player_count <;>
        simp [ServerData.launch_room, hpd, hres, hi, hlen,
          ServerData.create_game, Except.isOk, Except.toBool]
  · intro hi
    simp [ServerData.launch_room, hpd, hres, hi]
  · intro hi hlen
    simp [ServerData.launch_room, hpd, hres, hi, hlen]
  · intro hi hlen
    constructor
    · simp [ServerData.launch_room, hpd, hres, hi, hlen, ServerData.create_game]
    · intro hother
      simp [ServerData.launch_room, hpd, hres, hi, hlen, ServerData.create_game,
        launchFind_none _ hother]

theorem launch_room_iff_witness :
    (sNodup.launch_room 0 0).1.isOk = true :=
  (launch_room_iff sNodup 0 0 { id := 0, name := "alice" } [] [] roomNodup 0
    (by decide) (by decide) (by simp) (by decide) (by decide)).1.mpr
    ⟨rfl, by decide⟩

/-! ### Recording an action while the round is collecting (C7) -/

theorem lookupAction_overwrite (inputs : List (PlayerId × ActionKind))
    (pid : PlayerId) (act : ActionKind)
    (hany : inputs.any (fun kv => kv.1 = pid) = true) :
    lookupAction (inputs.map (fun kv => if kv.1 = pid then (kv.1, act) else kv)) pid
      = some act := by
  induction inputs with
  | nil => simp at hany
  | cons kv tl ih =>
    by_cases hk : kv.1 = pid
    · simp [lookupAction, List.find?_cons, hk]
    · have htl : tl.any (fun kv => kv.1 = pid) = true := by
        simpa [List.any_cons, hk] using hany
      simpa [lookupAction, List.find?_cons, hk] using ih htl

theorem lookupAction_append_new (inputs : List (PlayerId × ActionKind))
    (pid : PlayerId) (act : ActionKind)
    (hany : inputs.any (fun kv => kv.1 = pid) = false) :
    lookupAction (inputs ++ [(pid, act)]) pid = some act := by
  induction inputs with
  | nil => simp [lookupAction, List.find?_cons]
  | cons kv tl ih =>
    rw [List.any_cons] at hany
    have hk : ¬ kv.1 = pid := by
      intro hkk
      simp [hkk] at hany
    have htl : tl.any (fun kv => kv.1 = pid) = false := by
      simpa [hk] using hany
    simpa [lookupAction, List.find?_cons, hk] using ih htl

/-- Recording an action stores it under the player's key, overwriting any
earlier action of the same player: last write wins. -/
theorem lookupAction_insertAction (inputs : List (PlayerId × ActionKind))
    (pid : PlayerId) (act : ActionKind) :
    lookupAction (insertAction inputs pid act) pid = some act := by
  unfold insertAction
  split
  · rename_i hany
    exact lookupAction_overwrite _ _ _ hany
  · rename_i hany
    exact lookupAction_append_new _ _ _ (by rwa [Bool.not_eq_true] at hany)

/-- C7: a `playRound` by a registered member of a running game, after which
some player is still missing from the round's inputs, only records or
overwrites that member's entry in `current_round.inputs` (last write wins):
no resolution is triggered and the game's players/scores, round history,
round result and status are unchanged. -/
theorem play_round_collecting (s : ServerData) (pid gid : Int) (act : ActionKind)
    (ord : List (PlayerId × ActionKind)) (pd : PlayerData)
    (pre post : List GameData) (g : GameData)
    (hpd : s.players.find? (fun player => player.id = pid) = some pd)
    (hgames : s.games = pre ++ g :: post)
    (hpre : ∀ g' ∈ pre, ¬ g'.id = gid)
    (hg : g.id = gid)
    (hmem : g.players.any (fun pc => pc.1.id = pid) = true)
    (hrun : g.status = .Running)
    (hwait : allSubmitted (recordAction g pid act) = false) :
    s.play_round pid gid act ord
      = (.ok (recordAction g pid act),
         { s with games := pre ++ recordAction g pid act :: post }) ∧
    (recordAction g pid act).players = g.players ∧
    (recordAction g pid act).round_history = g.round_history ∧
    (recordAction g pid act).status = g.status ∧
    (recordAction g pid act).current_round.result = g.current_round.result ∧
    (recordAction g pid act).current_round.inputs
      = insertAction g.current_round.inputs pid act ∧
    lookupAction (recordAction g pid act).current_round.inputs pid = some act := by
  have hplay : playGames pid gid act ord s.games
      = .ok (recordAction g pid act, pre ++ recordAction g pid act :: post) := by
    rw [hgames, playGames_append pre _ hpre]
    simp [playGames, hg, hmem, hrun, stepGame, hwait, Except.map]
  refine ⟨?_, rfl, rfl, rfl, rfl, rfl, lookupAction_insertAction _ _ _⟩
  simp [ServerData.play_round, hpd, hplay]

def sCollect : ServerData :=
  applyOp (applyOp (applyOp (applyOp ServerData.init (.registerPlayer "alice"))
    (.registerPlayer "bob")) (.createRoom 0 "lobby" none)) (.joinRoom 1 0)

def sGame : ServerData := applyOp sCollect (.launchRoom 0 0)

def gFresh : GameData :=
  { id := 0, settings := defaultSettings,
    players := [({ id := 0, name := "alice" }, 0), ({ id := 1, name := "bob" }, 0)],
    current_round := RoundData.default, round_history := [], status := .Running }

theorem play_round_collecting_witness :
    sGame.play_round 0 0 ActionKind.Rock []
      = (.ok (recordAction gFresh 0 .Rock),
         { sGame with games := [] ++ recordAction gFresh 0 .Rock :: [] }) :=
  (play_round_collecting sGame 0 0 .Rock [] { id := 0, name := "alice" }
    [] [] gFresh (by decide) (by decide) (by simp) (by decide) (by decide)
    (by decide) (by decide)).1

/-! ### Ended is terminal (C8) -/

theorem playGames_ended_mem {pid gid : Int} {act : ActionKind}
    {ord : List (PlayerId × ActionKind)} {games : List GameData}
    {out : GameData × List GameData} {g : GameData}
    (hg : g ∈ games) (hend : g.status = .Ended)
    (h : playGames pid gid act ord games = .ok out) :
    g ∈ out.2 := by
  induction games generalizing out with
  | nil => simp at hg
  | cons gg rest ih =>
    rw [playGames] at h
    split at h
    · split at h
      · exact absurd h (by simp)
      · split at h
        · exact absurd h (by simp)
        · rename_i hrunning
          injection h with h'
          subst h'
          rcases List.mem_cons.mp hg with rfl | hg'
          · have : g.status = .Running := by simpa using hrunning
            rw [hend] at this
            exact absurd this (by simp)
          · exact List.mem_cons_of_mem _ hg'
    · split at h
      · exact absurd h (by simp)
      · rename_i g' rest' heq
        injection h with h'
        subst h'
        rcases List.mem_cons.mp hg with rfl | hg'
        · exact List.mem_cons_self _ _
        · exact List.mem_cons_of_mem _ (ih hg' heq)

/-- C8: `Ended` is terminal.  An ended game survives every operation with all
its data intact (no operation removes or mutates it), and a further
`playRound` on it by a registered member fails with `GameEnded`, leaving the
whole store unchanged. -/
theorem ended_terminal :
    (∀ (s : ServerData) (op : Op) (g : GameData),
        g ∈ s.games → g.status = .Ended → g ∈ (applyOp s op).games) ∧
    (∀ (s : ServerData) (pid gid : Int) (act : ActionKind)
        (ord : List (PlayerId × ActionKind)) (pd : PlayerData)
        (pre post : List GameData) (g : GameData),
        s.players.find? (fun player => player.id = pid) = some pd →
        s.games = pre ++ g :: post →
        (∀ g' ∈ pre, ¬ g'.id = gid) →
        g.id = gid →
        g.players.any (fun pc => pc.1.id = pid) = true →
        g.status = .Ended →
        s.play_round pid gid act ord = (.error .GameEnded, s)) := by
  constructor
  · intro s op g hg hend
    cases op with
    | registerPlayer name =>
      by_cases hc : s.players.any (fun player => player.name = name) <;>
        simpa [applyOp, runOp, ServerData.create_player_with_name, hc] using hg
    | createRoom pid nm stg =>
      cases hf : s.players.find? (fun player => player.id = pid) <;>
        simpa [applyOp, runOp, ServerData.create_room, hf] using hg
    | joinRoom pid rid =>
      cases hf : s.players.find? (fun player => player.id = pid) with
      | none => simpa [applyOp, runOp, ServerData.join_room, hf] using hg
      | some pd =>
        cases hj : joinRooms pd pid rid s.rooms <;>
          simpa [applyOp, runOp, ServerData.join_room, hf, hj] using hg
    | leaveRoom pid rid =>
      cases hf : s.players.find? (fun player => player.id = pid) with
      | none => simpa [applyOp, runOp, ServerData.leave_room, hf] using hg
      | some pd =>
        cases hl : leaveRooms pid rid s.rooms <;>
          simpa [applyOp, runOp, ServerData.leave_room, hf, hl] using hg
    | getRoom pid rid => exact hg
    | launchRoom pid rid =>
      cases hf : s.players.find? (fun player => player.id = pid) with
      | none => simpa [applyOp, runOp, ServerData.launch_room, hf] using hg
      | some pd =>
        cases hl : launchFind pid rid s.rooms with
        | error e =>
          simpa [applyOp, runOp, ServerData.launch_room,
            ServerData.create_game, hf, hl] using hg
        | ok out =>
          simp [applyOp, runOp, ServerData.launch_room,
            ServerData.create_game, hf, hl]
          exact Or.inl hg
    | getGame pid gid => exact hg
    | playRound pid gid act ord =>
      cases hf : s.players.find? (fun player => player.id = pid) with
      | none => simpa [applyOp, runOp, ServerData.play_round, hf] using hg
      | some pd =>
        cases hp : playGames pid gid act ord s.games with
        | error e => simpa [applyOp, runOp, ServerData.play_round, hf, hp] using hg
        | ok out =>
          have := playGames_ended_mem hg hend hp
          simpa [applyOp, runOp, ServerData.play_round, hf, hp] using this
  · intro s pid gid act ord pd pre post g hpd hgames hpre hg hmem hend
    have hplay : playGames pid gid act ord s.games = .error .GameEnded := by
      rw [hgames, playGames_append pre _ hpre]
      have hhead : playGames pid gid act ord (g :: post) = .error .GameEnded := by
        simp [playGames, hg, hmem, hend]
      rw [hhead]
      rfl
    simp [ServerData.play_round, hpd, hplay]

def gEnded : GameData :=
  { id := 0, settings := defaultSettings,
    players := [({ id := 0, name := "alice" }, 3), ({ id := 1, name := "bob" }, 0)],
    current_round := RoundData.default, round_history := [], status := .Ended }

def sEnded : ServerData :=
  { games := [gEnded], players := [{ id := 0, name := "alice" },
      { id := 1, name := "bob" }], rooms := [],
    next_player_id := 2, next_game_id := 1, next_room_id := 1 }

theorem ended_terminal_witness :
    gEnded ∈ (applyOp sEnded (.playRound 0 0 .Rock [])).games ∧
    sEnded.play_round 0 0 .Rock [] = (.error .GameEnded, sEnded) :=
  ⟨ended_terminal.1 sEnded (.playRound 0 0 .Rock []) gEnded (by simp [sEnded]) rfl,
   ended_terminal.2 sEnded 0 0 .Rock [] { id := 0, name := "alice" } [] [] gEnded
     (by decide) (by decide) (by simp) rfl (by decide) rfl⟩

/-! ### Room membership is not exclusive (C10) -/

/-- C10: membership in one room never blocks acting on another: for a
registered player who is already a member of some room, creating a new room
always succeeds, and joining a different target room succeeds exactly when
that target room's own checks pass (the player is not already in it and it is
not full) — no check ever consults the player's other memberships. -/
theorem membership_not_exclusive (s : ServerData) (pid : Int) (pd : PlayerData)
    (rother : RoomData) (nm : String) (stg : Option GameSettings)
    (pre post : List RoomData) (t : RoomData) (rid : Int)
    (hpd : s.players.find? (fun player => player.id = pid) = some pd)
    (hmem : rother ∈ s.rooms)
    (hin : rother.players.any (fun player => player.id = pid) = true)
    (hrooms : s.rooms = pre ++ t :: post)
    (hpre : ∀ r' ∈ pre, ¬ r'.id = rid)
    (ht : t.id = rid)
    (hdiff : ¬ t.id = rother.id) :
    ((s.create_room pid nm stg).1.isOk = true) ∧
    ((s.join_room pid rid).1.isOk = true
      ↔ (t.players.any (fun player => player.id = pid) = false
          ∧ t.players.length < t.settings.player_count)) := by
  constructor
  · simp [ServerData.create_room, hpd, Except.isOk, Except.toBool]
  · have hjr : joinRooms pd pid rid s.rooms
        = (joinRooms pd pid rid (t :: post)).map (fun out => (out.1, pre ++ out.2)) := by
      rw [hrooms]
      exact joinRooms_append pre _ hpre
    by_cases h1 : t.players.any (fun player => player.id = pid)
    · simp [ServerData.join_room, hpd, hjr, joinRooms, ht, h1, Except.map, Except.isOk, Except.toBool]
    · by_cases h2 : t.settings.player_count ≤ t.players.length
      · simp [ServerData.join_room, hpd, hjr, joinRooms, ht, h1, h2,
          Except.map, Except.isOk, Except.toBool]
      · simp [ServerData.join_room, hpd, hjr, joinRooms, ht, h1, h2,
          Except.map, Except.isOk, Except.toBool]
        omega

def sTwoRooms : ServerData :=
  applyOp (applyOp (applyOp (applyOp ServerData.init (.registerPlayer "alice"))
    (.registerPlayer "bob")) (.createRoom 0 "one" none)) (.createRoom 1 "two" none)

def roomOne : RoomData :=
  { id := 0, name := "one", settings := defaultSettings,
    players := [{ id := 0, name := "alice" }] }

def roomTwo : RoomData :=
  { id := 1, name := "two", settings := defaultSettings,
    players := [{ id := 1, name := "bob" }] }

theorem membership_not_exclusive_witness :
    (sTwoRooms.create_room 0 "three" none).1.isOk = true ∧
    (sTwoRooms.join_room 0 1).1.isOk = true :=
  ⟨(membership_not_exclusive sTwoRooms 0 { id := 0, name := "alice" } roomOne
      "three" none [roomOne] [] roomTwo 1 (by decide) (by decide) (by decide)
      (by decide) (by decide) (by decide) (by decide)).1,
   (membership_not_exclusive sTwoRooms 0 { id := 0, name := "alice" } roomOne
      "three" none [roomOne] [] roomTwo 1 (by decide) (by decide) (by decide)
      (by decide) (by decide) (by decide) (by decide)).2.mpr
      ⟨by decide, by decide⟩⟩

end Boardgames
